import Mathlib

/-!
# PLUME nullifier signatures: formal model of the rust-arkworks core

This file embeds the core of the PLUME nullifier-signature implementation
(`rust-arkworks/src/lib.rs`) in Lean 4 and proves the specified properties.

The curve group is modelled abstractly: a type `Point` that is an additive
commutative group and a module over `ZMod n`, where `n` is the order of the
scalar field (the prime group order).  The external collaborators — the SHA-256
digest, the hash-to-curve function and the compressed SEC1 point encoding — are
bundled in a `PlumeEnv` record, since only their input/output contracts matter
to the core.
-/

/-- Modelled from the spec: the hex encoding used by the SEC1 point-encoding
collaborator (`Sec1EncodePoint::to_encoded_point` returns a hex string, which
`affine_to_bytes` decodes with `hex::decode`).  This maps a nibble value to its
lowercase ASCII hex digit. -/
def hexDigitOf (x : ℕ) : ℕ :=
  if x < 10 then 48 + x else 87 + x

/-- Modelled from the spec: the value of one ASCII hex digit, accepting
`0`-`9`, `a`-`f` and `A`-`F`; `none` on any other character. -/
def hexVal (c : ℕ) : Option ℕ :=
  if 48 ≤ c ∧ c ≤ 57 then some (c - 48)
  else if 97 ≤ c ∧ c ≤ 102 then some (c - 87)
  else if 65 ≤ c ∧ c ≤ 70 then some (c - 55)
  else none

/-- Modelled from the spec: hex-encode a byte string, two digits per byte,
high nibble first. -/
def hexEncodeBytes (bs : List ℕ) : List ℕ :=
  bs.flatMap (fun b => [hexDigitOf (b / 16), hexDigitOf (b % 16)])

/-- Modelled from the spec: `hex::decode` — parse pairs of hex digits into
bytes, failing on an odd-length string or a non-hex character. -/
def hexDecodeBytes : List ℕ → Option (List ℕ)
  | [] => some []
  | [_] => none
  | c1 :: c2 :: rest =>
    match hexVal c1, hexVal c2, hexDecodeBytes rest with
    | some h1, some h2, some bs => some ((16 * h1 + h2) :: bs)
    | _, _, _ => none

/-- Modelled from the spec: the external collaborators consumed by the core —
the fixed-output-length digest used for Fiat–Shamir (`Sha256::digest`), the
fallible hash-to-curve function, and the canonical fixed-length compressed
point encoding (a byte string, so every byte is below 256). -/
structure PlumeEnv (Point E : Type) where
  sha256 : List ℕ → List ℕ
  hashToCurve : List ℕ → Point → Except E Point
  encodePoint : Point → List ℕ
  encodePoint_byte : ∀ p, ∀ b ∈ encodePoint p, b < 256

variable {Point E : Type} {n : ℕ}

/-- Modelled from the spec: `point.to_encoded_point(true)` — the compressed
SEC1 encoding rendered as a hex string. -/
def to_encoded_point (env : PlumeEnv Point E) (point : Point) : List ℕ :=
  hexEncodeBytes (env.encodePoint point)

/-- Source `affine_to_bytes`: hex-decode the compressed encoded point; the `.expect`
panic branch of the source is modelled by the `Option.getD` default. -/
def affine_to_bytes (env : PlumeEnv Point E) (point : Point) : List ℕ :=
  (hexDecodeBytes (to_encoded_point env point)).getD []

/-- Source `compute_h`: delegate to the hash-to-curve collaborator on
`(message, pk)`. -/
def compute_h (env : PlumeEnv Point E) (pk : Point) (message : List ℕ) :
    Except E Point :=
  env.hashToCurve message pk

/-- Source `compute_c_v1`: digest of the concatenation of the six point encodings
`[g, pk, h, nul, g^r, z]`. -/
def compute_c_v1 (env : PlumeEnv Point E)
    (g_point pk hashed_to_curve nullifier r_point hashed_to_curve_r : Point) :
    List ℕ :=
  let c_preimage_vec := List.flatten
    [affine_to_bytes env g_point,
     affine_to_bytes env pk,
     affine_to_bytes env hashed_to_curve,
     affine_to_bytes env nullifier,
     affine_to_bytes env r_point,
     affine_to_bytes env hashed_to_curve_r]
  env.sha256 c_preimage_vec

/-- Source `compute_c_v2`: digest of the concatenation of the three point encodings
`[nul, g^r, z]`. -/
def compute_c_v2 (env : PlumeEnv Point E)
    (nullifier r_point hashed_to_curve_r : Point) : List ℕ :=
  let nul_bytes := affine_to_bytes env nullifier
  let g_r_bytes := affine_to_bytes env r_point
  let z_bytes := affine_to_bytes env hashed_to_curve_r
  let c_preimage_vec := List.flatten [nul_bytes, g_r_bytes, z_bytes]
  env.sha256 c_preimage_vec

/-- Source `PlumeVersion`: the two transcript variants. -/
inductive PlumeVersion where
  | V1
  | V2
  deriving DecidableEq

/-- Source `Parameters`: the group generator. -/
structure Parameters (Point : Type) where
  g_point : Point
  deriving DecidableEq

/-- Source `PlumeSignature`: the proof object. -/
structure PlumeSignature (Point : Type) (n : ℕ) where
  hashed_to_curve_r : Point
  r_point : Point
  s : ZMod n
  c : ZMod n
  nullifier : Point
  deriving DecidableEq

/-- Collaborator `P::ScalarField::from_be_bytes_mod_order`: interpret a byte string as a
big-endian unsigned integer and reduce it modulo the scalar-field order. -/
def from_be_bytes_mod_order (n : ℕ) (bytes : List ℕ) : ZMod n :=
  ((bytes.foldl (fun acc b => acc * 256 + b) 0 : ℕ) : ZMod n)

/-- Modelled from the spec: the injected randomness source, producing
uniformly random scalar-field elements on demand.  A value of `Rng n` is a
stream of scalars together with the position of the next draw; `rand` returns
the drawn scalar and the advanced source. -/
structure Rng (n : ℕ) where
  stream : ℕ → ZMod n
  pos : ℕ

/-- Modelled from the spec: one draw from the randomness source. -/
def Rng.rand (g : Rng n) : ZMod n × Rng n :=
  (g.stream g.pos, ⟨g.stream, g.pos + 1⟩)

variable [AddCommGroup Point] [Module (ZMod n) Point] [DecidableEq Point]

/-- Source `keygen`: draw a secret scalar, return `(pk, sk)` with `pk = g^sk`,
threading the mutated randomness source. -/
def keygen (pp : Parameters Point) (rng : Rng n) :
    (Point × ZMod n) × Rng n :=
  let drawn := rng.rand
  let secret_key := drawn.1
  let public_key := secret_key • pp.g_point
  ((public_key, secret_key), drawn.2)

/-- Source `sign_with_r`: sign a message using a specified `r` value.  The response
scalar is computed exactly as in the source: the field elements are converted
to unbounded naturals (`into_repr().into()`), multiplied and added there, and
the sum is converted back into the scalar field (`P::ScalarField::from`). -/
def sign_with_r (env : PlumeEnv Point E) (pp : Parameters Point)
    (keypair : Point × ZMod n) (message : List ℕ) (r_scalar : ZMod n)
    (version : PlumeVersion) : Except E (PlumeSignature Point n) :=
  let g_point := pp.g_point
  let r_point := r_scalar • g_point
  match compute_h env keypair.1 message with
  | Except.error e => Except.error e
  | Except.ok hashed_to_curve =>
    let hashed_to_curve_r := r_scalar • hashed_to_curve
    let nullifier := keypair.2 • hashed_to_curve
    let c := match version with
      | PlumeVersion.V1 =>
        compute_c_v1 env g_point keypair.1 hashed_to_curve nullifier r_point
          hashed_to_curve_r
      | PlumeVersion.V2 =>
        compute_c_v2 env nullifier r_point hashed_to_curve_r
    let c_scalar := from_be_bytes_mod_order n c
    let sk_c : ℕ := (keypair.2).val * c_scalar.val
    let s : ℕ := r_scalar.val + sk_c
    let s_scalar : ZMod n := (s : ZMod n)
    Except.ok
      { hashed_to_curve_r := hashed_to_curve_r
        s := s_scalar
        r_point := r_point
        c := c_scalar
        nullifier := nullifier }

/-- Source `sign`: draw `r` from the randomness source and call `sign_with_r`,
threading the mutated randomness source. -/
def sign (env : PlumeEnv Point E) (pp : Parameters Point) (rng : Rng n)
    (keypair : Point × ZMod n) (message : List ℕ) (version : PlumeVersion) :
    Except E (PlumeSignature Point n) × Rng n :=
  let drawn := rng.rand
  let r_scalar := drawn.1
  (sign_with_r env pp keypair message r_scalar version, drawn.2)

/-- Source `verify_non_zk`: recompute `h` and the challenge, then perform the three
checks with early `Ok(false)` returns. -/
def verify_non_zk (env : PlumeEnv Point E) (sig : PlumeSignature Point n)
    (pp : Parameters Point) (pk : Point) (message : List ℕ)
    (version : PlumeVersion) : Except E Bool :=
  match compute_h env pk message with
  | Except.error e => Except.error e
  | Except.ok hashed_to_curve =>
    let c := match version with
      | PlumeVersion.V1 =>
        compute_c_v1 env pp.g_point pk hashed_to_curve sig.nullifier
          sig.r_point sig.hashed_to_curve_r
      | PlumeVersion.V2 =>
        compute_c_v2 env sig.nullifier sig.r_point sig.hashed_to_curve_r
    let c_scalar := from_be_bytes_mod_order n c
    let g_s := sig.s • pp.g_point
    let pk_c := sig.c • pk
    let g_s_pk_c := g_s - pk_c
    if sig.r_point ≠ g_s_pk_c then Except.ok false
    else
      let h_s := sig.s • hashed_to_curve
      let nul_c := sig.c • sig.nullifier
      let h_s_nul_c := h_s - nul_c
      if sig.hashed_to_curve_r ≠ h_s_nul_c then Except.ok false
      else if c_scalar ≠ sig.c then Except.ok false
      else Except.ok true

/-- A small concrete environment used to exercise the definitions: the group
is `ZMod 5` (a module over its own scalar field), the digest is the identity,
hash-to-curve returns the public key itself, and a point is encoded as the
single byte of its value. -/
def testEnv : PlumeEnv (ZMod 5) Unit where
  sha256 := fun l => l
  hashToCurve := fun _ p => Except.ok p
  encodePoint := fun p => [p.val]
  encodePoint_byte := by decide

/-- A concrete environment whose hash-to-curve collaborator always fails. -/
def testEnvFail : PlumeEnv (ZMod 5) Unit where
  sha256 := fun l => l
  hashToCurve := fun _ _ => Except.error ()
  encodePoint := fun p => [p.val]
  encodePoint_byte := by decide

/-- Concrete parameters for the test environment: generator `1`. -/
def testPp : Parameters (ZMod 5) := ⟨1⟩

/-- A concrete randomness source: the constant stream `2`. -/
def testRng : Rng 5 := ⟨fun _ => 2, 0⟩

/-- The signature produced by `sign_with_r` in the test environment with
secret key `2`, empty message, nonce `3`, version V2 (and also V1). -/
def testSig : PlumeSignature (ZMod 5) 5 :=
  { hashed_to_curve_r := 1, r_point := 3, s := 4, c := 3, nullifier := 4 }

/-! ## Basic lemmas about the collaborator models -/

theorem hexVal_hexDigitOf (x : ℕ) (hx : x < 16) :
    hexVal (hexDigitOf x) = some x := by
  by_cases h : x < 10
  · simp only [hexDigitOf, hexVal, if_pos h]
    rw [if_pos (by omega)]
    congr 1
    omega
  · simp only [hexDigitOf, hexVal, if_neg h]
    rw [if_neg (by omega), if_pos (by omega)]
    congr 1
    omega

theorem hexDecodeBytes_hexEncodeBytes (bs : List ℕ)
    (h : ∀ b ∈ bs, b < 256) :
    hexDecodeBytes (hexEncodeBytes bs) = some bs := by
  induction bs with
  | nil => rfl
  | cons b bs ih =>
    have hb : b < 256 := h b (List.mem_cons_self _ _)
    have h1 : b / 16 < 16 := by omega
    have h2 : b % 16 < 16 := Nat.mod_lt _ (by norm_num)
    have hrest : hexDecodeBytes (hexEncodeBytes bs) = some bs :=
      ih (fun x hx => h x (List.mem_cons_of_mem _ hx))
    simp only [hexEncodeBytes, List.flatMap_cons, List.cons_append,
      List.nil_append]
    show hexDecodeBytes (hexDigitOf (b / 16) :: hexDigitOf (b % 16) ::
      hexEncodeBytes bs) = some (b :: bs)
    rw [hexDecodeBytes, hexVal_hexDigitOf _ h1, hexVal_hexDigitOf _ h2, hrest]
    show some ((16 * (b / 16) + b % 16) :: bs) = some (b :: bs)
    have hdm : 16 * (b / 16) + b % 16 = b := by omega
    rw [hdm]

theorem affine_to_bytes_encodePoint (env : PlumeEnv Point E) (p : Point) :
    hexDecodeBytes (to_encoded_point env p) = some (env.encodePoint p) := by
  unfold to_encoded_point
  exact hexDecodeBytes_hexEncodeBytes _ (env.encodePoint_byte p)

theorem affine_to_bytes_eq (env : PlumeEnv Point E) (p : Point) :
    affine_to_bytes env p = env.encodePoint p := by
  unfold affine_to_bytes
  rw [affine_to_bytes_encodePoint]
  rfl

/-! ## Scalar-field and group-algebra lemmas -/

theorem natCast_val_add_mul [NeZero n] (r sk c : ZMod n) :
    ((r.val + sk.val * c.val : ℕ) : ZMod n) = r + sk * c := by
  push_cast
  rw [ZMod.natCast_val, ZMod.natCast_val, ZMod.natCast_val,
    ZMod.cast_id, ZMod.cast_id, ZMod.cast_id]

theorem smul_sub_smul_smul (g : Point) (r sk c : ZMod n) :
    (r + sk * c) • g - c • (sk • g) = r • g := by
  rw [add_smul, ← mul_smul, mul_comm c sk, add_sub_cancel_right]

/-! ## Characterization of `sign_with_r` and `verify_non_zk` -/

theorem sign_with_r_error (env : PlumeEnv Point E) (pp : Parameters Point)
    (keypair : Point × ZMod n) (message : List ℕ) (r_scalar : ZMod n)
    (version : PlumeVersion) (e : E)
    (hh : compute_h env keypair.1 message = Except.error e) :
    sign_with_r env pp keypair message r_scalar version = Except.error e := by
  unfold sign_with_r
  rw [hh]

theorem sign_with_r_ok (env : PlumeEnv Point E) (pp : Parameters Point)
    (pk : Point) (sk : ZMod n) (message : List ℕ) (r_scalar : ZMod n)
    (version : PlumeVersion) (hp : Point)
    (hh : compute_h env pk message = Except.ok hp) :
    sign_with_r env pp (pk, sk) message r_scalar version = Except.ok
      { hashed_to_curve_r := r_scalar • hp
        s := ((r_scalar.val +
          sk.val * (from_be_bytes_mod_order n (match version with
            | PlumeVersion.V1 =>
              compute_c_v1 env pp.g_point pk hp (sk • hp)
                (r_scalar • pp.g_point) (r_scalar • hp)
            | PlumeVersion.V2 =>
              compute_c_v2 env (sk • hp) (r_scalar • pp.g_point)
                (r_scalar • hp))).val : ℕ) : ZMod n)
        r_point := r_scalar • pp.g_point
        c := from_be_bytes_mod_order n (match version with
          | PlumeVersion.V1 =>
            compute_c_v1 env pp.g_point pk hp (sk • hp)
              (r_scalar • pp.g_point) (r_scalar • hp)
          | PlumeVersion.V2 =>
            compute_c_v2 env (sk • hp) (r_scalar • pp.g_point)
              (r_scalar • hp))
        nullifier := sk • hp } := by
  unfold sign_with_r
  rw [hh]

theorem verify_non_zk_error (env : PlumeEnv Point E)
    (sig : PlumeSignature Point n) (pp : Parameters Point) (pk : Point)
    (message : List ℕ) (version : PlumeVersion) (e : E)
    (hh : compute_h env pk message = Except.error e) :
    verify_non_zk env sig pp pk message version = Except.error e := by
  unfold verify_non_zk
  rw [hh]

theorem verify_non_zk_ok_true_iff (env : PlumeEnv Point E)
    (sig : PlumeSignature Point n) (pp : Parameters Point) (pk : Point)
    (message : List ℕ) (version : PlumeVersion) (hp : Point)
    (hh : compute_h env pk message = Except.ok hp) :
    (verify_non_zk env sig pp pk message version = Except.ok true ↔
      (sig.r_point = sig.s • pp.g_point - sig.c • pk ∧
       sig.hashed_to_curve_r = sig.s • hp - sig.c • sig.nullifier ∧
       from_be_bytes_mod_order n (match version with
         | PlumeVersion.V1 =>
           compute_c_v1 env pp.g_point pk hp sig.nullifier sig.r_point
             sig.hashed_to_curve_r
         | PlumeVersion.V2 =>
           compute_c_v2 env sig.nullifier sig.r_point
             sig.hashed_to_curve_r) = sig.c)) := by
  unfold verify_non_zk
  rw [hh]
  dsimp only
  split_ifs with h1 h2 h3
  · simp only [Except.ok.injEq, Bool.false_eq_true, false_iff]
    intro hcon
    exact h1 hcon.1
  · simp only [Except.ok.injEq, Bool.false_eq_true, false_iff]
    intro hcon
    exact h2 hcon.2.1
  · simp only [Except.ok.injEq, Bool.false_eq_true, false_iff]
    intro hcon
    exact h3 hcon.2.2
  · simp only [Except.ok.injEq, true_iff]
    push_neg at h1 h2 h3
    exact ⟨h1, h2, h3⟩

theorem verify_non_zk_ok_false_iff (env : PlumeEnv Point E)
    (sig : PlumeSignature Point n) (pp : Parameters Point) (pk : Point)
    (message : List ℕ) (version : PlumeVersion) (hp : Point)
    (hh : compute_h env pk message = Except.ok hp) :
    (verify_non_zk env sig pp pk message version = Except.ok false ↔
      ¬ (sig.r_point = sig.s • pp.g_point - sig.c • pk ∧
         sig.hashed_to_curve_r = sig.s • hp - sig.c • sig.nullifier ∧
         from_be_bytes_mod_order n (match version with
           | PlumeVersion.V1 =>
             compute_c_v1 env pp.g_point pk hp sig.nullifier sig.r_point
               sig.hashed_to_curve_r
           | PlumeVersion.V2 =>
             compute_c_v2 env sig.nullifier sig.r_point
               sig.hashed_to_curve_r) = sig.c)) := by
  unfold verify_non_zk
  rw [hh]
  dsimp only
  split_ifs with h1 h2 h3
  · simp only [Except.ok.injEq, true_iff]
    intro hcon
    exact h1 hcon.1
  · simp only [Except.ok.injEq, true_iff]
    intro hcon
    exact h2 hcon.2.1
  · simp only [Except.ok.injEq, true_iff]
    intro hcon
    exact h3 hcon.2.2
  · simp only [Except.ok.injEq, Bool.true_eq_false, false_iff, not_not]
    push_neg at h1 h2 h3
    exact ⟨h1, h2, h3⟩

theorem verify_non_zk_total (env : PlumeEnv Point E)
    (sig : PlumeSignature Point n) (pp : Parameters Point) (pk : Point)
    (message : List ℕ) (version : PlumeVersion) (hp : Point)
    (hh : compute_h env pk message = Except.ok hp) :
    ∃ b, verify_non_zk env sig pp pk message version = Except.ok b := by
  unfold verify_non_zk
  rw [hh]
  dsimp only
  split_ifs <;> exact ⟨_, rfl⟩

theorem compute_c_v1_append (env : PlumeEnv Point E)
    (g_point pk hashed_to_curve nullifier r_point hashed_to_curve_r : Point) :
    compute_c_v1 env g_point pk hashed_to_curve nullifier r_point
      hashed_to_curve_r = env.sha256
      (affine_to_bytes env g_point ++ affine_to_bytes env pk ++
       affine_to_bytes env hashed_to_curve ++ affine_to_bytes env nullifier ++
       affine_to_bytes env r_point ++ affine_to_bytes env hashed_to_curve_r) := by
  unfold compute_c_v1
  simp [List.append_assoc]

theorem compute_c_v2_append (env : PlumeEnv Point E)
    (nullifier r_point hashed_to_curve_r : Point) :
    compute_c_v2 env nullifier r_point hashed_to_curve_r = env.sha256
      (affine_to_bytes env nullifier ++ affine_to_bytes env r_point ++
       affine_to_bytes env hashed_to_curve_r) := by
  unfold compute_c_v2
  simp [List.append_assoc]

/-! ## The claims -/

/-- Claim C1 (completeness round-trip): for every parameters value, every key
pair with `pk = sk • g`, every message on which hash-to-curve succeeds, every
nonce scalar `r` and both versions, verifying the signature produced by
`sign_with_r` (and hence by `sign`, which only draws `r` and then calls
`sign_with_r`) with the same parameters, public key, message and version
returns `Ok(true)`. -/
theorem completeness_round_trip [NeZero n] (env : PlumeEnv Point E)
    (pp : Parameters Point) (pk : Point) (sk : ZMod n) (message : List ℕ)
    (r : ZMod n) (version : PlumeVersion) (sig : PlumeSignature Point n)
    (hp : Point) (rng : Rng n)
    (hpk : pk = sk • pp.g_point)
    (hh : compute_h env pk message = Except.ok hp)
    (hs : sign_with_r env pp (pk, sk) message r version = Except.ok sig) :
    verify_non_zk env sig pp pk message version = Except.ok true ∧
    (sign env pp rng (pk, sk) message version).1 =
      sign_with_r env pp (pk, sk) message (rng.rand).1 version := by
  refine ⟨?_, rfl⟩
  rw [sign_with_r_ok env pp pk sk message r version hp hh] at hs
  injection hs with hsig
  subst hsig
  rw [verify_non_zk_ok_true_iff env _ pp pk message version hp hh]
  refine ⟨?_, ?_, ?_⟩
  · show r • pp.g_point = _ • pp.g_point - _ • pk
    rw [natCast_val_add_mul, hpk, smul_sub_smul_smul]
  · show r • hp = _ • hp - _ • (sk • hp)
    rw [natCast_val_add_mul, smul_sub_smul_smul]
  · rfl

/-- Witness for C1 at a concrete input in the test environment. -/
theorem completeness_round_trip_witness :
    ((2 : ZMod 5) = (2 : ZMod 5) • testPp.g_point ∧
     compute_h testEnv (2 : ZMod 5) [] = Except.ok 2 ∧
     sign_with_r testEnv testPp (2, 2) [] (3 : ZMod 5) PlumeVersion.V2 =
       Except.ok testSig) ∧
    verify_non_zk testEnv testSig testPp 2 [] PlumeVersion.V2 =
      Except.ok true ∧
    (sign testEnv testPp testRng (2, 2) [] PlumeVersion.V2).1 =
      sign_with_r testEnv testPp (2, 2) [] (testRng.rand).1
        PlumeVersion.V2 :=
  ⟨⟨by decide, by rfl, by rfl⟩,
   completeness_round_trip testEnv testPp 2 2 [] 3 PlumeVersion.V2 testSig 2
     testRng (by decide) (by rfl) (by rfl)⟩

/-- Claim C2 (response-scalar arithmetic): the `s` field of the signature
produced by `sign_with_r` equals `r + sk * c` computed in the scalar field —
the unbounded-integer detour (multiply and add over ℕ, then convert back)
yields exactly the modular result. -/
theorem response_scalar_modular [NeZero n] (env : PlumeEnv Point E)
    (pp : Parameters Point) (pk : Point) (sk : ZMod n) (message : List ℕ)
    (r : ZMod n) (version : PlumeVersion) (sig : PlumeSignature Point n)
    (hs : sign_with_r env pp (pk, sk) message r version = Except.ok sig) :
    sig.s = r + sk * sig.c := by
  cases hc : compute_h env pk message with
  | error e =>
    rw [sign_with_r_error env pp (pk, sk) message r version e hc] at hs
    exact Except.noConfusion hs
  | ok hp =>
    rw [sign_with_r_ok env pp pk sk message r version hp hc] at hs
    injection hs with hsig
    subst hsig
    exact natCast_val_add_mul r sk _

/-- Witness for C2 at a concrete input in the test environment. -/
theorem response_scalar_modular_witness :
    sign_with_r testEnv testPp (2, 2) [] (3 : ZMod 5) PlumeVersion.V2 =
      Except.ok testSig ∧
    testSig.s = (3 : ZMod 5) + 2 * testSig.c :=
  ⟨by rfl,
   response_scalar_modular testEnv testPp 2 2 [] 3 PlumeVersion.V2 testSig
     (by rfl)⟩

/-- Claim C3 (verification decision): under a successful hash-to-curve,
`verify_non_zk` returns `Ok(true)` iff the three checks hold — the two group
equations taken with the signature's own `c`, and equality of the recomputed
challenge with the signature's `c` — and returns `Ok(false)` iff at least one
of them fails. -/
theorem verify_decision (env : PlumeEnv Point E) (sig : PlumeSignature Point n)
    (pp : Parameters Point) (pk : Point) (message : List ℕ)
    (version : PlumeVersion) (hp : Point)
    (hh : compute_h env pk message = Except.ok hp) :
    (verify_non_zk env sig pp pk message version = Except.ok true ↔
      (sig.r_point = sig.s • pp.g_point - sig.c • pk ∧
       sig.hashed_to_curve_r = sig.s • hp - sig.c • sig.nullifier ∧
       from_be_bytes_mod_order n (match version with
         | PlumeVersion.V1 =>
           compute_c_v1 env pp.g_point pk hp sig.nullifier sig.r_point
             sig.hashed_to_curve_r
         | PlumeVersion.V2 =>
           compute_c_v2 env sig.nullifier sig.r_point
             sig.hashed_to_curve_r) = sig.c)) ∧
    (verify_non_zk env sig pp pk message version = Except.ok false ↔
      ¬ (sig.r_point = sig.s • pp.g_point - sig.c • pk ∧
         sig.hashed_to_curve_r = sig.s • hp - sig.c • sig.nullifier ∧
         from_be_bytes_mod_order n (match version with
           | PlumeVersion.V1 =>
             compute_c_v1 env pp.g_point pk hp sig.nullifier sig.r_point
               sig.hashed_to_curve_r
           | PlumeVersion.V2 =>
             compute_c_v2 env sig.nullifier sig.r_point
               sig.hashed_to_curve_r) = sig.c)) :=
  ⟨verify_non_zk_ok_true_iff env sig pp pk message version hp hh,
   verify_non_zk_ok_false_iff env sig pp pk message version hp hh⟩

/-- Witness for C3 at a concrete input in the test environment. -/
theorem verify_decision_witness :
    compute_h testEnv (2 : ZMod 5) [] = Except.ok 2 ∧
    ((verify_non_zk testEnv testSig testPp 2 [] PlumeVersion.V2 =
        Except.ok true ↔
      (testSig.r_point = testSig.s • testPp.g_point - testSig.c • 2 ∧
       testSig.hashed_to_curve_r =
         testSig.s • (2 : ZMod 5) - testSig.c • testSig.nullifier ∧
       from_be_bytes_mod_order 5 (compute_c_v2 testEnv testSig.nullifier
         testSig.r_point testSig.hashed_to_curve_r) = testSig.c)) ∧
     (verify_non_zk testEnv testSig testPp 2 [] PlumeVersion.V2 =
        Except.ok false ↔
      ¬ (testSig.r_point = testSig.s • testPp.g_point - testSig.c • 2 ∧
         testSig.hashed_to_curve_r =
           testSig.s • (2 : ZMod 5) - testSig.c • testSig.nullifier ∧
         from_be_bytes_mod_order 5 (compute_c_v2 testEnv testSig.nullifier
           testSig.r_point testSig.hashed_to_curve_r) = testSig.c))) :=
  ⟨by rfl,
   verify_decision testEnv testSig testPp 2 [] PlumeVersion.V2 2 (by rfl)⟩

/-- Claim C4 (V1 challenge construction): the V1 challenge scalar is the
digest of the concatenation, with no separators, of exactly the six point
encodings `encode(g) ++ encode(pk) ++ encode(h) ++ encode(nul) ++
encode(g^r) ++ encode(z)` in this order, reduced modulo the scalar-field
order; `sign_with_r` produces its `c` field this way and `verify_non_zk`
accepts only signatures whose `c` field equals the same construction. -/
theorem v1_challenge_construction (env : PlumeEnv Point E)
    (pp : Parameters Point) (pk : Point) (sk : ZMod n) (message : List ℕ)
    (r : ZMod n) (sig : PlumeSignature Point n) (hp : Point)
    (hh : compute_h env pk message = Except.ok hp)
    (hs : sign_with_r env pp (pk, sk) message r PlumeVersion.V1 =
      Except.ok sig) :
    sig.c = from_be_bytes_mod_order n (env.sha256
      (affine_to_bytes env pp.g_point ++ affine_to_bytes env pk ++
       affine_to_bytes env hp ++ affine_to_bytes env sig.nullifier ++
       affine_to_bytes env sig.r_point ++
       affine_to_bytes env sig.hashed_to_curve_r)) ∧
    (∀ g' pk' h' nul' rp' z' : Point,
      compute_c_v1 env g' pk' h' nul' rp' z' = env.sha256
        (affine_to_bytes env g' ++ affine_to_bytes env pk' ++
         affine_to_bytes env h' ++ affine_to_bytes env nul' ++
         affine_to_bytes env rp' ++ affine_to_bytes env z')) ∧
    (∀ sig' : PlumeSignature Point n,
      verify_non_zk env sig' pp pk message PlumeVersion.V1 = Except.ok true →
      sig'.c = from_be_bytes_mod_order n (env.sha256
        (affine_to_bytes env pp.g_point ++ affine_to_bytes env pk ++
         affine_to_bytes env hp ++ affine_to_bytes env sig'.nullifier ++
         affine_to_bytes env sig'.r_point ++
         affine_to_bytes env sig'.hashed_to_curve_r))) := by
  refine ⟨?_, compute_c_v1_append env, ?_⟩
  · rw [sign_with_r_ok env pp pk sk message r PlumeVersion.V1 hp hh] at hs
    injection hs with hsig
    subst hsig
    show from_be_bytes_mod_order n (compute_c_v1 env pp.g_point pk hp
      (sk • hp) (r • pp.g_point) (r • hp)) = _
    rw [compute_c_v1_append]
  · intro sig' hv
    rw [verify_non_zk_ok_true_iff env sig' pp pk message PlumeVersion.V1 hp
      hh] at hv
    obtain ⟨-, -, h3⟩ := hv
    rw [← h3]
    show from_be_bytes_mod_order n (compute_c_v1 env pp.g_point pk hp
      sig'.nullifier sig'.r_point sig'.hashed_to_curve_r) = _
    rw [compute_c_v1_append]

/-- Witness for C4 at a concrete input in the test environment. -/
theorem v1_challenge_construction_witness :
    (compute_h testEnv (2 : ZMod 5) [] = Except.ok 2 ∧
     sign_with_r testEnv testPp (2, 2) [] (3 : ZMod 5) PlumeVersion.V1 =
       Except.ok testSig) ∧
    (testSig.c = from_be_bytes_mod_order 5 (testEnv.sha256
      (affine_to_bytes testEnv testPp.g_point ++
       affine_to_bytes testEnv (2 : ZMod 5) ++
       affine_to_bytes testEnv (2 : ZMod 5) ++
       affine_to_bytes testEnv testSig.nullifier ++
       affine_to_bytes testEnv testSig.r_point ++
       affine_to_bytes testEnv testSig.hashed_to_curve_r)) ∧
     (∀ g' pk' h' nul' rp' z' : ZMod 5,
       compute_c_v1 testEnv g' pk' h' nul' rp' z' = testEnv.sha256
         (affine_to_bytes testEnv g' ++ affine_to_bytes testEnv pk' ++
          affine_to_bytes testEnv h' ++ affine_to_bytes testEnv nul' ++
          affine_to_bytes testEnv rp' ++ affine_to_bytes testEnv z')) ∧
     (∀ sig' : PlumeSignature (ZMod 5) 5,
       verify_non_zk testEnv sig' testPp 2 [] PlumeVersion.V1 =
         Except.ok true →
       sig'.c = from_be_bytes_mod_order 5 (testEnv.sha256
         (affine_to_bytes testEnv testPp.g_point ++
          affine_to_bytes testEnv (2 : ZMod 5) ++
          affine_to_bytes testEnv (2 : ZMod 5) ++
          affine_to_bytes testEnv sig'.nullifier ++
          affine_to_bytes testEnv sig'.r_point ++
          affine_to_bytes testEnv sig'.hashed_to_curve_r)))) :=
  ⟨⟨by rfl, by rfl⟩,
   v1_challenge_construction testEnv testPp 2 2 [] 3 testSig 2 (by rfl)
     (by rfl)⟩

/-- Claim C5 (V2 challenge construction): the V2 challenge scalar is the
digest of the concatenation, with no separators, of exactly the three point
encodings `encode(nul) ++ encode(g^r) ++ encode(z)` in this order, reduced
modulo the scalar-field order — the generator, public key and hash-to-curve
point do not enter the transcript; `sign_with_r` produces its `c` field this
way and `verify_non_zk` accepts only signatures whose `c` field equals the
same construction. -/
theorem v2_challenge_construction (env : PlumeEnv Point E)
    (pp : Parameters Point) (pk : Point) (sk : ZMod n) (message : List ℕ)
    (r : ZMod n) (sig : PlumeSignature Point n) (hp : Point)
    (hh : compute_h env pk message = Except.ok hp)
    (hs : sign_with_r env pp (pk, sk) message r PlumeVersion.V2 =
      Except.ok sig) :
    sig.c = from_be_bytes_mod_order n (env.sha256
      (affine_to_bytes env sig.nullifier ++ affine_to_bytes env sig.r_point ++
       affine_to_bytes env sig.hashed_to_curve_r)) ∧
    (∀ nul' rp' z' : Point,
      compute_c_v2 env nul' rp' z' = env.sha256
        (affine_to_bytes env nul' ++ affine_to_bytes env rp' ++
         affine_to_bytes env z')) ∧
    (∀ sig' : PlumeSignature Point n,
      verify_non_zk env sig' pp pk message PlumeVersion.V2 = Except.ok true →
      sig'.c = from_be_bytes_mod_order n (env.sha256
        (affine_to_bytes env sig'.nullifier ++
         affine_to_bytes env sig'.r_point ++
         affine_to_bytes env sig'.hashed_to_curve_r))) := by
  refine ⟨?_, compute_c_v2_append env, ?_⟩
  · rw [sign_with_r_ok env pp pk sk message r PlumeVersion.V2 hp hh] at hs
    injection hs with hsig
    subst hsig
    show from_be_bytes_mod_order n (compute_c_v2 env (sk • hp)
      (r • pp.g_point) (r • hp)) = _
    rw [compute_c_v2_append]
  · intro sig' hv
    rw [verify_non_zk_ok_true_iff env sig' pp pk message PlumeVersion.V2 hp
      hh] at hv
    obtain ⟨-, -, h3⟩ := hv
    rw [← h3]
    show from_be_bytes_mod_order n (compute_c_v2 env sig'.nullifier
      sig'.r_point sig'.hashed_to_curve_r) = _
    rw [compute_c_v2_append]

/-- Witness for C5 at a concrete input in the test environment. -/
theorem v2_challenge_construction_witness :
    (compute_h testEnv (2 : ZMod 5) [] = Except.ok 2 ∧
     sign_with_r testEnv testPp (2, 2) [] (3 : ZMod 5) PlumeVersion.V2 =
       Except.ok testSig) ∧
    (testSig.c = from_be_bytes_mod_order 5 (testEnv.sha256
      (affine_to_bytes testEnv testSig.nullifier ++
       affine_to_bytes testEnv testSig.r_point ++
       affine_to_bytes testEnv testSig.hashed_to_curve_r)) ∧
     (∀ nul' rp' z' : ZMod 5,
       compute_c_v2 testEnv nul' rp' z' = testEnv.sha256
         (affine_to_bytes testEnv nul' ++ affine_to_bytes testEnv rp' ++
          affine_to_bytes testEnv z')) ∧
     (∀ sig' : PlumeSignature (ZMod 5) 5,
       verify_non_zk testEnv sig' testPp 2 [] PlumeVersion.V2 =
         Except.ok true →
       sig'.c = from_be_bytes_mod_order 5 (testEnv.sha256
         (affine_to_bytes testEnv sig'.nullifier ++
          affine_to_bytes testEnv sig'.r_point ++
          affine_to_bytes testEnv sig'.hashed_to_curve_r)))) :=
  ⟨⟨by rfl, by rfl⟩,
   v2_challenge_construction testEnv testPp 2 2 [] 3 testSig 2 (by rfl)
     (by rfl)⟩

/-- Claim C6 (error channel separation): `sign_with_r`, `sign` and
`verify_non_zk` return `Err(e)` exactly when `compute_h` fails with `e` on
the `(message, pk)` pair, propagating it unchanged; when `compute_h`
succeeds, `verify_non_zk` returns `Ok(b)` for some boolean `b` and
`sign_with_r` returns `Ok` of some signature — a failed check is never an
error. -/
theorem error_channel_separation (env : PlumeEnv Point E)
    (sig : PlumeSignature Point n) (pp : Parameters Point) (pk : Point)
    (sk : ZMod n) (message : List ℕ) (r : ZMod n) (version : PlumeVersion)
    (rng : Rng n) :
    (∀ e : E,
      (verify_non_zk env sig pp pk message version = Except.error e ↔
        compute_h env pk message = Except.error e) ∧
      (sign_with_r env pp (pk, sk) message r version = Except.error e ↔
        compute_h env pk message = Except.error e) ∧
      ((sign env pp rng (pk, sk) message version).1 = Except.error e ↔
        compute_h env pk message = Except.error e)) ∧
    (∀ hp, compute_h env pk message = Except.ok hp →
      (∃ b, verify_non_zk env sig pp pk message version = Except.ok b) ∧
      (∃ sg, sign_with_r env pp (pk, sk) message r version =
        Except.ok sg)) := by
  constructor
  · intro e
    cases hc : compute_h env pk message with
    | error e0 =>
      refine ⟨?_, ?_, ?_⟩
      · rw [verify_non_zk_error env sig pp pk message version e0 hc]
        simp
      · rw [sign_with_r_error env pp (pk, sk) message r version e0 hc]
        simp
      · show sign_with_r env pp (pk, sk) message (rng.rand).1 version =
          Except.error e ↔ _
        rw [sign_with_r_error env pp (pk, sk) message (rng.rand).1 version
          e0 hc]
        simp
    | ok hp =>
      obtain ⟨b, hb⟩ :=
        verify_non_zk_total env sig pp pk message version hp hc
      refine ⟨?_, ?_, ?_⟩
      · rw [hb]
        simp
      · rw [sign_with_r_ok env pp pk sk message r version hp hc]
        simp
      · show sign_with_r env pp (pk, sk) message (rng.rand).1 version =
          Except.error e ↔ _
        rw [sign_with_r_ok env pp pk sk message (rng.rand).1 version hp hc]
        simp
  · intro hp hc
    exact ⟨verify_non_zk_total env sig pp pk message version hp hc,
      ⟨_, sign_with_r_ok env pp pk sk message r version hp hc⟩⟩

/-- Witness for C6: the error case in the failing test environment. -/
theorem error_channel_separation_witness :
    (verify_non_zk testEnvFail testSig testPp 2 [] PlumeVersion.V2 =
       Except.error () ↔
     compute_h testEnvFail (2 : ZMod 5) [] = Except.error ()) ∧
    (sign_with_r testEnvFail testPp (2, 2) [] (3 : ZMod 5) PlumeVersion.V2 =
       Except.error () ↔
     compute_h testEnvFail (2 : ZMod 5) [] = Except.error ()) ∧
    ((sign testEnvFail testPp testRng (2, 2) [] PlumeVersion.V2).1 =
       Except.error () ↔
     compute_h testEnvFail (2 : ZMod 5) [] = Except.error ()) :=
  (error_channel_separation testEnvFail testSig testPp 2 2 [] 3
    PlumeVersion.V2 testRng).1 ()

/-- Claim C7 (nullifier independence from the nonce): signatures produced by
`sign_with_r` with two different nonces have identical `nullifier` fields,
equal to `sk • h` where `h = compute_h(pk, message)`. -/
theorem nullifier_nonce_independent (env : PlumeEnv Point E)
    (pp : Parameters Point) (pk : Point) (sk : ZMod n) (message : List ℕ)
    (r1 r2 : ZMod n) (version : PlumeVersion)
    (sig1 sig2 : PlumeSignature Point n)
    (h1 : sign_with_r env pp (pk, sk) message r1 version = Except.ok sig1)
    (h2 : sign_with_r env pp (pk, sk) message r2 version = Except.ok sig2) :
    sig1.nullifier = sig2.nullifier ∧
    ∀ hp, compute_h env pk message = Except.ok hp →
      sig1.nullifier = sk • hp := by
  cases hc : compute_h env pk message with
  | error e =>
    rw [sign_with_r_error env pp (pk, sk) message r1 version e hc] at h1
    exact Except.noConfusion h1
  | ok hp =>
    rw [sign_with_r_ok env pp pk sk message r1 version hp hc] at h1
    rw [sign_with_r_ok env pp pk sk message r2 version hp hc] at h2
    injection h1 with e1
    injection h2 with e2
    subst e1
    subst e2
    refine ⟨rfl, ?_⟩
    intro hp' hc'
    injection hc' with ehp
    subst ehp
    rfl

/-- Witness for C7 at concrete nonces 3 and 1 in the test environment. -/
theorem nullifier_nonce_independent_witness :
    (sign_with_r testEnv testPp (2, 2) [] (3 : ZMod 5) PlumeVersion.V2 =
       Except.ok testSig ∧
     sign_with_r testEnv testPp (2, 2) [] (1 : ZMod 5) PlumeVersion.V2 =
       Except.ok { hashed_to_curve_r := 2, r_point := 1, s := 0, c := 2,
                   nullifier := 4 }) ∧
    (testSig.nullifier =
      ({ hashed_to_curve_r := 2, r_point := 1, s := 0, c := 2,
         nullifier := 4 } : PlumeSignature (ZMod 5) 5).nullifier ∧
     ∀ hp, compute_h testEnv (2 : ZMod 5) [] = Except.ok hp →
       testSig.nullifier = (2 : ZMod 5) • hp) :=
  ⟨⟨by rfl, by rfl⟩,
   nullifier_nonce_independent testEnv testPp 2 2 [] 3 1 PlumeVersion.V2
     testSig _ (by rfl) (by rfl)⟩

/-- Claim C8 (key-generation invariant): for every parameters value and every
randomness draw, `keygen` returns a pair `(pk, sk)` with
`pk = generator • sk`, and it always returns a pair — explicitly, it is the
total function assembling `(sk • g, sk)` from the drawn scalar. -/
theorem keygen_invariant (pp : Parameters Point) (rng : Rng n) :
    (keygen pp rng).1.1 = (keygen pp rng).1.2 • pp.g_point ∧
    keygen pp rng =
      (((rng.rand).1 • pp.g_point, (rng.rand).1), (rng.rand).2) :=
  ⟨rfl, rfl⟩

/-- Witness for C8 at concrete parameters and randomness source. -/
theorem keygen_invariant_witness :
    (keygen testPp testRng).1.1 = (keygen testPp testRng).1.2 •
      testPp.g_point ∧
    keygen testPp testRng =
      (((testRng.rand).1 • testPp.g_point, (testRng.rand).1),
        (testRng.rand).2) :=
  keygen_invariant testPp testRng

/-- Claim C9 (determinism of the core operations): `sign_with_r` and
`verify_non_zk` are deterministic functions of their explicit arguments —
equal inputs give equal outputs — and `sign` is `sign_with_r` applied to the
scalar drawn from the injected randomness source, so randomness enters only
through that draw (as it does in `keygen`). -/
theorem core_deterministic (env env' : PlumeEnv Point E)
    (pp pp' : Parameters Point) (kp kp' : Point × ZMod n)
    (message message' : List ℕ) (r r' : ZMod n)
    (version version' : PlumeVersion) (sig sig' : PlumeSignature Point n)
    (pk pk' : Point) (rng rng' : Rng n)
    (h1 : env = env') (h2 : pp = pp') (h3 : kp = kp')
    (h4 : message = message') (h5 : r = r') (h6 : version = version')
    (h7 : sig = sig') (h8 : pk = pk') (h9 : rng = rng') :
    sign_with_r env pp kp message r version =
      sign_with_r env' pp' kp' message' r' version' ∧
    verify_non_zk env sig pp pk message version =
      verify_non_zk env' sig' pp' pk' message' version' ∧
    sign env pp rng kp message version =
      sign env' pp' rng' kp' message' version' ∧
    sign env pp rng kp message version =
      (sign_with_r env pp kp message (rng.rand).1 version, (rng.rand).2) ∧
    keygen pp rng = keygen pp' rng' := by
  subst h1
  subst h2
  subst h3
  subst h4
  subst h5
  subst h6
  subst h7
  subst h8
  subst h9
  exact ⟨rfl, rfl, rfl, rfl, rfl⟩

/-- Witness for C9 at concrete equal inputs. -/
theorem core_deterministic_witness :
    sign_with_r testEnv testPp (2, 2) [] (3 : ZMod 5) PlumeVersion.V2 =
      sign_with_r testEnv testPp (2, 2) [] (3 : ZMod 5) PlumeVersion.V2 ∧
    verify_non_zk testEnv testSig testPp 2 [] PlumeVersion.V2 =
      verify_non_zk testEnv testSig testPp 2 [] PlumeVersion.V2 ∧
    sign testEnv testPp testRng (2, 2) [] PlumeVersion.V2 =
      sign testEnv testPp testRng (2, 2) [] PlumeVersion.V2 ∧
    sign testEnv testPp testRng (2, 2) [] PlumeVersion.V2 =
      (sign_with_r testEnv testPp (2, 2) [] (testRng.rand).1 PlumeVersion.V2,
        (testRng.rand).2) ∧
    keygen testPp testRng = keygen testPp testRng :=
  core_deterministic testEnv testEnv testPp testPp (2, 2) (2, 2) [] [] 3 3
    PlumeVersion.V2 PlumeVersion.V2 testSig testSig 2 2 testRng testRng
    rfl rfl rfl rfl rfl rfl rfl rfl rfl

/-- Claim C10 (implicit totality of point encoding): for every curve point
the compressed encoding produced by the collaborator is a well-formed hex
string, so the hex decode in `affine_to_bytes` always succeeds — it returns
`some` of the underlying byte encoding, hence the `.expect` panic branch is
never reached and `affine_to_bytes` is total, returning exactly the
collaborator's byte encoding. -/
theorem affine_to_bytes_never_panics (env : PlumeEnv Point E) (p : Point) :
    hexDecodeBytes (to_encoded_point env p) = some (env.encodePoint p) ∧
    affine_to_bytes env p = env.encodePoint p :=
  ⟨affine_to_bytes_encodePoint env p, affine_to_bytes_eq env p⟩

/-- Witness for C10 at a concrete point of the test environment. -/
theorem affine_to_bytes_never_panics_witness :
    hexDecodeBytes (to_encoded_point testEnv (3 : ZMod 5)) =
      some (testEnv.encodePoint 3) ∧
    affine_to_bytes testEnv (3 : ZMod 5) = testEnv.encodePoint 3 :=
  affine_to_bytes_never_panics testEnv 3
